import Mathlib

/-!
Shallow embedding of the gitmanager build/publish pipeline
(`builder/builder.py`, `builder/views.py`, `builder/models.py`).

Each definition mirrors one piece of the Python source; theorems at the
end of the file settle the specification claims against these
definitions.
-/

namespace GitManager

/-! ## Update status (`builder/models.py`, class `UpdateStatus`) -/

inductive UpdateStatus where
  | pending
  | running
  | success
  | failed
  | skipped
deriving DecidableEq, Repr

/-! ## Build image/command resolution (`builder/builder.py`, `build`)

`build(course, path, image, command, changed_files)` loads the course
meta file and resolves the effective build image and command.  The meta
file is a dictionary; `load_meta` yields a falsy value when the course
has no meta file (the source logs `No apps.meta file` in that case), and
a (possibly empty-of-relevant-keys) dictionary otherwise.  We model the
meta dictionary by its two relevant keys and the falsy case by `none`. -/

structure Meta where
  build_image : Option String
  build_command : Option String
deriving DecidableEq, Repr

/-- Global service settings used by `build`: `settings.DEFAULT_IMAGE`
and `settings.DEFAULT_CMD`. -/
structure BuildSettings where
  default_image : String
  default_cmd : String
deriving DecidableEq, Repr

/-- The image/command resolution cascade of `build`
(`builder/builder.py` lines 126-151), before trimming.

* If an override `image` is given, it is used together with the override
  `command` (which may be absent).
* Otherwise the image defaults to `DEFAULT_IMAGE` and the command to the
  override `command`; when a meta dictionary is present, `build_image`
  and `build_command` entries take precedence, and when the meta has no
  `build_command` and no override command was given, the global
  `DEFAULT_CMD` is used only when the meta also lacks `build_image`
  (otherwise the command is left unset for the image entrypoint).
* When the meta is absent the defaults of the first line stand: the
  default image together with the override command (possibly unset). -/
def resolveImageCommand (s : BuildSettings) (image command : Option String)
    (meta : Option Meta) : String × Option String :=
  match image with
  | some img => (img, command)
  | none =>
    match meta with
    | some m =>
      let bi := m.build_image.getD s.default_image
      let bc : Option String :=
        match m.build_command with
        | some c => some c
        | none =>
          match command with
          | some c => some c
          | none => if m.build_image = none then some s.default_cmd else none
      (bi, bc)
    | none => (s.default_image, command)

/-- The outcome of `build`: either no executor invocation (empty image
after trimming: "no build step", trivially successful), or an invocation
of the external build module with a resolved image and an optional
tokenized command. -/
inductive BuildInvocation where
  | noBuild
  | invoke (image : String) (cmd : Option (List String))
deriving DecidableEq, Repr

/-- Python's `str.strip()`: remove whitespace from both ends. -/
def pyStrip (s : String) : String :=
  ⟨((s.data.dropWhile Char.isWhitespace).reverse.dropWhile Char.isWhitespace).reverse⟩

/-- The function `build` after resolution (`builder/builder.py` lines 153-178): strip
the image, short-circuit when it is empty, shell-tokenize the command if
present, and invoke the external executor.  Tokenization (`shlex.split`)
is an external library; it is passed in as `tokenize`. -/
def buildInvocation (tokenize : String → List String) (s : BuildSettings)
    (image command : Option String) (meta : Option Meta) : BuildInvocation :=
  let (bi, bc) := resolveImageCommand s image command meta
  let bi := pyStrip bi
  if bi = "" then .noBuild
  else .invoke bi (bc.map tokenize)

/-! ## Update sequencing (`builder/builder.py`, `build_course` lines 479-497)

`build_course` first deletes all but the latest 10 updates of the course
(ordered by descending `request_time`), then fetches the pending updates
ordered by ascending `request_time`, marks all but the last `SKIPPED`,
and runs the last.  The database is modelled as a list of update
records; the ordered queries of the record store are modelled by
insertion sort on `request_time`. -/

structure Update where
  uid : Nat
  requestTime : Nat
  status : UpdateStatus
deriving DecidableEq, Repr

/-- Comparison by request time (the sort key of the ordered queries). -/
def leT (a b : Update) : Prop :=
  a.requestTime ≤ b.requestTime

/-- Insert into a list that is sorted by descending `requestTime`. -/
def insertDesc (u : Update) : List Update → List Update
  | [] => [u]
  | v :: vs => if u.requestTime ≤ v.requestTime then v :: insertDesc u vs else u :: v :: vs

/-- Query `order_by("-request_time")`: sort by descending request time. -/
def sortDesc : List Update → List Update
  | [] => []
  | u :: us => insertDesc u (sortDesc us)

/-- Insert into a list that is sorted by ascending `requestTime`. -/
def insertAsc (u : Update) : List Update → List Update
  | [] => [u]
  | v :: vs => if v.requestTime ≤ u.requestTime then v :: insertAsc u vs else u :: v :: vs

/-- Query `order_by("request_time")`: sort by ascending request time. -/
def sortAsc : List Update → List Update
  | [] => []
  | u :: us => insertAsc u (sortAsc us)

/-- The pruning step: `filter(course=course).order_by("-request_time")[10:]`
is deleted, so the course keeps the 10 most recent updates. -/
def pruneUpdates (db : List Update) : List Update :=
  (sortDesc db).take 10

/-- The pending updates of the pruned database, in ascending request
time order (`filter(course=course, status=PENDING).order_by("request_time")`). -/
def pendingAsc (db : List Update) : List Update :=
  sortAsc (db.filter (fun u => u.status = .pending))

/-- The update-sequencing prefix of `build_course`: prune the history,
fetch the pending updates, mark all but the most recent one `SKIPPED`,
and set the most recent one `RUNNING` (it is the update that this
invocation runs).  Returns the resulting update records together with
the update chosen to run (`none` when no pending update survives). -/
def sequenceUpdates (db : List Update) : List Update × Option Update :=
  match (pendingAsc (pruneUpdates db)).getLast? with
  | none => (pruneUpdates db, none)
  | some u =>
    ((pruneUpdates db).map (fun v =>
      if v.status = .pending ∧ v.uid ≠ u.uid then { v with status := .skipped }
      else if v.uid = u.uid then { v with status := .running }
      else v),
      some u)

/-! ## Self-containment check (`builder/builder.py`, `is_self_contained`)

`is_self_contained(path)` walks every file under the directory
(`os.walk`).  For each file it first checks whether the file's resolved
real path is a subpath of the directory, then whether the file is a
symlink with an absolute target; the first violation aborts the walk.
A file of the walk is modelled by the two facts the source inspects
about it plus its printable path. -/

structure FileEntry where
  /-- printable path of the file (`rpath / file`) -/
  path : String
  /-- value of `is_subpath(str((rpath / file).resolve()), spath)` -/
  resolvedInside : Bool
  /-- value of `os.path.islink(rpath / file)` -/
  isLink : Bool
  /-- value of `os.path.isabs(os.readlink(rpath / file))` -/
  targetAbs : Bool
deriving DecidableEq, Repr

/-- A file passes the check when its resolved path stays inside the
directory and it is not an absolute symlink. -/
def fileOk (f : FileEntry) : Prop :=
  f.resolvedInside = true ∧ ¬(f.isLink = true ∧ f.targetAbs = true)

instance (f : FileEntry) : Decidable (fileOk f) := by
  unfold fileOk; infer_instance

/-- The message returned for a violating file, matching the source's two
format strings. -/
def violationReason (f : FileEntry) : String :=
  if f.resolvedInside = false then
    f.path ++ " links to a path outside the course directory"
  else
    f.path ++ " is an absolute symlink: this will break the course"

/-- The function `is_self_contained`, over the files of the walk in walk order. -/
def is_self_contained : List FileEntry → Bool × Option String
  | [] => (true, none)
  | f :: fs =>
    if f.resolvedInside = false then
      (false, some (f.path ++ " links to a path outside the course directory"))
    else if f.isLink = true ∧ f.targetAbs = true then
      (false, some (f.path ++ " is an absolute symlink: this will break the course"))
    else is_self_contained fs

/-! ## Publish (`builder/builder.py`, `publish` lines 371-428)

The state of the STORE and PUBLISH trees of one course, as `publish`
observes and mutates it.  `store_path` / `prod_path` existence and the
version-id file contents are direct filesystem facts; the result of
`CourseConfig.get` for each source is modelled by an `Option`
(`none` = raises `ConfigError`).  The errors reported by the external
`publish_graders` collaborator are part of the state. -/

structure PubState where
  storeExists : Bool
  /-- content of STORE's version-id file, `none` when the file is missing -/
  storeVersion : Option String
  prodExists : Bool
  /-- content of PUBLISH's version-id file, `none` when the file is missing -/
  prodVersion : Option String
  /-- result of `CourseConfig.get(course_key, STORE)`: `none` = `ConfigError` -/
  storeConfig : Option String
  /-- result of `CourseConfig.get(course_key, PUBLISH)`: `none` = `ConfigError` -/
  prodConfig : Option String
  /-- errors returned by the external `publish_graders(config)` call -/
  graderErrors : List String
deriving DecidableEq, Repr

/-- Result of one `publish` run: the filesystem state afterwards, the
outcome (`Except.error` models the raised exception, carrying the
accumulated error messages; `Except.ok` the returned error list),
whether the STORE→PUBLISH renames were performed, and the config the
run ended up with (the source's `config` variable). -/
structure PubResult where
  state : PubState
  outcome : Except (List String) (List String)
  promoted : Bool
  config : Option String
deriving Repr

def storeLoadErrorMsg : String :=
  "Failed to load newly built course for this reason: ConfigError"

def prodLoadErrorMsg : String :=
  "Failed to load already published config: ConfigError"

def courseNotFoundMsg : String :=
  "Course directory not found - the course probably has not been built"

/-- The promotion condition of `publish` (line 385): either version-id
file missing, or their contents differ. -/
def versionsDiffer (s : PubState) : Prop :=
  s.prodVersion = none ∨ s.storeVersion = none ∨ s.prodVersion ≠ s.storeVersion

instance (s : PubState) : Decidable (versionsDiffer s) := by
  unfold versionsDiffer; infer_instance

/-- Tail of `publish` (lines 410-428): when no STORE config was loaded,
fall back to the PUBLISH config; raise when no config at all was
obtained; otherwise return the accumulated errors plus the grader
collaborator's errors.

Modelled from the spec for the external pieces: `symbolic_link(config)`
recreates the static symlink (no effect on this state) and
`publish_graders(config)` contributes `graderErrors`. -/
def publishFallback (s : PubState) (errs : List String) : PubResult :=
  if s.prodExists then
    match s.prodConfig with
    | some c => { state := s, outcome := .ok (errs ++ s.graderErrors), promoted := false, config := some c }
    | none =>
      { state := s, outcome := .error (errs ++ [prodLoadErrorMsg]), promoted := false, config := none }
  else
    if errs = [] then
      { state := s, outcome := .error [courseNotFoundMsg], promoted := false, config := none }
    else
      { state := s, outcome := .error errs, promoted := false, config := none }

/-- The error messages a `publish` run records: the returned error list
when it returns, the messages carried by the raised exception when it
raises. -/
def recordedErrors (r : PubResult) : List String :=
  match r.outcome with
  | .ok errs => errs
  | .error errs => errs

/-- Whether the `publish` run raised an exception. -/
def publishRaises (r : PubResult) : Bool :=
  match r.outcome with
  | .ok _ => false
  | .error _ => true

/-- The state after the STORE→PUBLISH renames (and the asynchronous
copy back to STORE): PUBLISH holds STORE's artifacts and version id,
STORE keeps files with the same content. -/
def promotedState (s : PubState) (c : String) : PubState :=
  { s with prodExists := true, prodVersion := s.storeVersion, prodConfig := some c }

/-- The function `publish(course_key)` (lines 371-428).  When STORE exists and the
version ids differ (or either is missing), load the STORE config under
the STORE lock; on success rename the three STORE artifacts onto the
PUBLISH paths (PUBLISH now holds STORE's index, defaults and version
id) and asynchronously copy them back to STORE (so STORE's files keep
the same content); on `ConfigError` record the error and leave PUBLISH
untouched.  When no STORE config was obtained, fall back to the
PUBLISH config; raise when neither config was obtained. -/
def publishRun (s : PubState) : PubResult :=
  if s.storeExists = true ∧ versionsDiffer s then
    match s.storeConfig with
    | some c =>
      let s' := { s with prodExists := true, prodVersion := s.storeVersion,
                         prodConfig := some c }
      { state := s', outcome := .ok s.graderErrors, promoted := true, config := some c }
    | none => publishFallback s [storeLoadErrorMsg]
  else publishFallback s []

/-! ## The orchestrator pipeline (`builder/builder.py`, `build_course`
lines 499-660)

After the sequencing prefix has chosen an update, `build_course` runs
the pipeline stages inside a `try`/`except`/`else`/`finally` block.  The
course record fields and caller options are carried explicitly; the
outcomes of the external operations (git, the build executor, config
loading, store, clean) are the `RunEnv` — quantifying over it covers
every exit path: success, stage failure via early `return`, and
unhandled exception. -/

structure CourseRec where
  /-- value of `course.git_origin` (a `CharField`; empty string = unset) -/
  git_origin : String
  email_on_error : Bool
  update_automatically : Bool
  skip_build_failsafes : Bool
  /-- value of `course.remote_id` -/
  remote_id : Option Nat
deriving DecidableEq, Repr

structure BuildOptions where
  skip_git : Bool
  skip_build : Bool
  skip_notify : Bool
  rebuild_all : Bool
deriving DecidableEq, Repr

/-- Outcome of `update_from_git`: the call may raise, or return a
success flag together with the changed files (`none` = unknown). -/
inductive GitOutcome where
  | raised
  | returned (ok : Bool) (changed : Option (List String))
deriving DecidableEq, Repr

/-- Outcome of the `CourseConfig.get` validation step inside
`build_course` (lines 581-589): success, a `ConfigError` (logged as a
warning, then re-raised), or a `ValidationError` (logged, early return). -/
inductive ConfigOutcome where
  | ok
  | configError
  | validationError
deriving DecidableEq, Repr

/-- Outcomes of the external operations invoked by one `build_course`
run.  `Except Unit α` models a call that may raise (`Except.error ()`). -/
structure RunEnv where
  gitOutcome : GitOutcome
  /-- whether `settings.LOCAL_COURSE_SOURCE_PATH` is configured -/
  localSourceConfigured : Bool
  /-- whether the local `shutil.copytree` copy raises -/
  copyRaises : Bool
  /-- outcome of the external build executor (may raise) -/
  buildOutcome : Except Unit Bool
  /-- result of `is_self_contained(build_path)` -/
  selfContained : Bool × Option String
  configOutcome : ConfigOutcome
  /-- outcome of `store(perfmonitor, config)` (may raise, e.g. lock timeout) -/
  storeOutcome : Except Unit Bool
  /-- whether `settings.FRONTEND_URL` is configured -/
  frontendConfigured : Bool
  /-- outcome of the git `clean` in the `finally` block (may raise) -/
  cleanOutcome : Except Unit Bool

/-- How the `try` body of `build_course` ended: it ran to the end and
set the update `SUCCESS`; it hit an early `return` (stage failure); or
an exception escaped to the `except` handler. -/
inductive BodyResult where
  | success
  | earlyReturn
  | raised
deriving DecidableEq, Repr

/-- The changed-files value handed to the build stage (lines 544-557):
`rebuild_all` forces the wildcard, an unknown changed set falls back to
the wildcard, and otherwise the detected list is passed through. -/
def effectiveChangedFiles (rebuild_all : Bool) (changed : Option (List String)) :
    List String :=
  if rebuild_all then ["*"]
  else
    match changed with
    | none => ["*"]
    | some fs => fs

/-- The git-synchronization phase of `build_course` (lines 515-535):
returns the changed files carried forward (`none` = unknown), or the
body outcome when the phase ends the body. -/
def gitPhase (c : CourseRec) (o : BuildOptions) (env : RunEnv) :
    Except BodyResult (Option (List String)) :=
  if o.skip_git then .ok none
  else if c.git_origin ≠ "" then
    match env.gitOutcome with
    | .raised => .error .raised
    | .returned ok changed =>
      if ok then .ok changed else .error .earlyReturn
  else if env.localSourceConfigured then
    if env.copyRaises then .error .raised else .ok none
  else .ok none

/-- The build phase (lines 544-559): when not skipped, compute the
effective changed files and invoke `build`; record the changed-files
argument of the invocation.  Returns the invocation argument (`none`
when `build` was never called) and the phase outcome. -/
def buildPhase (o : BuildOptions) (env : RunEnv) (changed : Option (List String)) :
    Option (List String) × Except BodyResult Unit :=
  if o.skip_build then (none, .ok ())
  else
    let cf := effectiveChangedFiles o.rebuild_all changed
    (some cf,
      match env.buildOutcome with
      | .error _ => .error .raised
      | .ok ok => if ok then .ok () else .error .earlyReturn)

/-- The stages after a successful build invocation (lines 567-610):
self-containment check (early return on violation), config
load/validation (a `ConfigError` is re-raised, a `ValidationError` is an
early return), then store unless `skip_build_failsafes` bypasses it
(store may raise, e.g. on a file-lock timeout). -/
def postBuildPhase (c : CourseRec) (env : RunEnv) : BodyResult :=
  if env.selfContained.1 = false then .earlyReturn
  else
    match env.configOutcome with
    | .configError => .raised
    | .validationError => .earlyReturn
    | .ok =>
      if c.skip_build_failsafes then .success
      else
        match env.storeOutcome with
        | .error _ => .raised
        | .ok ok => if ok then .success else .earlyReturn

/-- The `try` body of `build_course` (lines 505-610): git phase, build
phase, self-containment check, config load/validation, store.  Returns
how the body ended together with the changed-files argument of the
build invocation (for the build stage's contract). -/
def runBody (c : CourseRec) (o : BuildOptions) (env : RunEnv) :
    BodyResult × Option (List String) :=
  match gitPhase c o env with
  | .error r => (r, none)
  | .ok changed =>
    match buildPhase o env changed with
    | (arg, .error r) => (r, arg)
    | (arg, .ok ()) => (postBuildPhase c env, arg)

/-- The observable terminal facts of one `build_course` run. -/
structure FinalState where
  status : UpdateStatus
  /-- whether `send_error_mail(course, "... build failed", log)` was called -/
  failureEmailSent : Bool
  /-- whether `notify_update(course)` was called (the `else` clause) -/
  notified : Bool
  /-- whether `update.log` was persisted by the `finally` block -/
  logPersisted : Bool
  /-- whether `update.updated_time` was persisted by the `finally` block -/
  timePersisted : Bool
deriving DecidableEq, Repr

/-- The tail of `build_course` from the `try` block on: run the body; on normal
completion (no exception, no early return) the `else` clause decides
whether to notify the frontend; the `finally` block always runs: force
a non-`SUCCESS` status to `FAILED` and send the failure email exactly
when `email_on_error` is set, then persist the final log and the
completion timestamp (the git clean afterwards swallows its own
failures and persists the log again). -/
def buildCourseRun (c : CourseRec) (o : BuildOptions) (env : RunEnv) : FinalState :=
  let (body, _) := runBody c o env
  -- status as set inside the body: RUNNING at entry, SUCCESS at the end
  let statusInBody : UpdateStatus := if body = .success then .success else .running
  -- `else` clause (lines 614-627): runs only when the body completed normally
  let notified :=
    body = .success ∧ c.update_automatically = true ∧ c.remote_id ≠ none ∧
      o.skip_notify = false ∧ env.frontendConfigured = true
  -- `finally` clause (lines 628-660)
  let status := if statusInBody ≠ .success then .failed else statusInBody
  let emailSent := statusInBody ≠ .success ∧ c.email_on_error = true
  { status := status
    failureEmailSent := decide emailSent
    notified := decide notified
    logPersisted := true
    timePersisted := true }

/-! ## The git webhook (`builder/views.py`, `hook` lines 233-298)

The hook handles POST requests from git services.  For unauthenticated
requests carrying a GitLab or GitHub event header, the webhook secret of
the course is verified - unless `course.webhook_secret` is `None`, in
which case verification is skipped with a warning.  Afterwards the push
branch is extracted from the request payload and compared against the
course branch, an update record is created and a `push_event` job is
enqueued.

The HMAC-SHA256 digest used by `verify_hmac` is an external library
function; the model takes it as a parameter `hmac` (hex digest of
secret and body). -/

structure HookCourse where
  webhook_secret : Option String
  git_branch : String
deriving DecidableEq, Repr

structure HookRequest where
  isPost : Bool
  /-- value of `request.user.is_authenticated` -/
  authenticated : Bool
  /-- value of `course.has_access(request, Permission.WRITE)` for the requester -/
  hasWriteAccess : Bool
  /-- whether `request.META.get('HTTP_X_GITLAB_EVENT')` is truthy -/
  gitlabEvent : Bool
  /-- whether `request.META.get('HTTP_X_GITHUB_EVENT')` is truthy -/
  githubEvent : Bool
  /-- value of `request.headers.get("X-Gitlab-Token")` -/
  gitlabToken : Option String
  /-- value of `request.headers.get("X-Hub-Signature-256")` -/
  githubSignature : Option String
  /-- the raw request body (fed to the HMAC check) -/
  body : String
  /-- result of `get_post_data(request)` followed by `data.get('ref')`:
  outer `none` = invalid JSON or falsy data, inner `none` = no `ref` key -/
  refField : Option (Option String)
  /-- merged POST and GET parameters -/
  reqParams : List (String × String)
  /-- whether `request.META.get('HTTP_REFERER')` is truthy -/
  hasReferer : Bool
deriving DecidableEq, Repr

inductive HookResponse where
  | methodNotAllowed
  | forbidden (msg : String)
  | badRequest (msg : String)
  | redirectUpdates
  | ok
deriving DecidableEq, Repr

/-- Parameters passed on to the `push_event` job (lines 284-293). -/
structure PushParams where
  skip_git : Option Bool
  skip_build : Option Bool
  skip_notify : Option Bool
  build_image : Option String
  build_command : Option String
deriving DecidableEq, Repr

structure HookResult where
  response : HookResponse
  updateCreated : Bool
  enqueued : Option PushParams
deriving DecidableEq, Repr

/-- Model of `hmac.compare_digest` on two strings: constant-time equality. -/
def compareDigest (a b : String) : Bool := a == b

/-- Model of `verify_hmac(received_signature, secret, body)` with the digest
function abstracted. -/
def verify_hmac (hmac : String → String → String)
    (received secret body : String) : Bool :=
  compareDigest received ("sha256=" ++ hmac secret body)

/-- Model of `try_verify_github(request, course)`: `none` = verified. -/
def try_verify_github (hmac : String → String → String)
    (r : HookRequest) (secret : String) : Option String :=
  match r.githubSignature with
  | none => some "No X-Hub-Signature-256 header"
  | some received =>
    if verify_hmac hmac received secret r.body then none
    else some "Signatures did not match"

/-- Model of `try_verify_gitlab(request, course)`: `none` = verified. -/
def try_verify_gitlab (r : HookRequest) (secret : String) : Option String :=
  match r.gitlabToken with
  | none => some "No X-Gitlab-Token header"
  | some tok =>
    if compareDigest secret tok then none
    else some "Secrets did not match"

/-- Model of `data.get('ref', '').rpartition("/")[2]`: the part after the last
slash (the whole string when it has no slash). -/
def refBranch (ref : Option String) : String :=
  ((ref.getD "").splitOn "/").getLastD ""

/-- One boolean `push_event` parameter: present when the key is among
the request parameters, true when its value is `"on"` or `"true"`. -/
def boolParam (ps : List (String × String)) (k : String) : Option Bool :=
  (ps.find? (fun p => p.1 == k)).map (fun p => p.2 == "on" || p.2 == "true")

/-- A string `push_event` parameter: present only when truthy (non-empty). -/
def strParam (ps : List (String × String)) (k : String) : Option String :=
  match (ps.find? (fun p => p.1 == k)).map (fun p => p.2) with
  | some v => if v = "" then none else some v
  | none => none

/-- The `push_event` keyword arguments built from the request
parameters (lines 284-291). -/
def hookParams (ps : List (String × String)) : PushParams :=
  { skip_git := boolParam ps "skip_git"
    skip_build := boolParam ps "skip_build"
    skip_notify := boolParam ps "skip_notify"
    build_image := strParam ps "build_image"
    build_command := strParam ps "build_command" }

/-- The tail of `hook` shared by every accepted request (lines
273-298): compare the extracted branch against the course branch,
create the update record, enqueue the `push_event` job, and answer with
a redirect (when a referer is present) or `ok`.  `branch` is `none` on
the authenticated path and when the payload had no usable data. -/
def hookAccept (c : HookCourse) (r : HookRequest) (branch : Option String) :
    HookResult :=
  match branch with
  | some b =>
    if b ≠ c.git_branch then
      { response := .badRequest "Ignored: push to a non-matching branch"
        updateCreated := false, enqueued := none }
    else
      { response := if r.hasReferer then .redirectUpdates else .ok
        updateCreated := true, enqueued := some (hookParams r.reqParams) }
  | none =>
    { response := if r.hasReferer then .redirectUpdates else .ok
      updateCreated := true, enqueued := some (hookParams r.reqParams) }

/-- The branch extracted from the payload on the unauthenticated path
(lines 254-256 resp. 266-268): `data.get('ref','').rpartition("/")[2]`
when the payload parsed to truthy data, else `None`. -/
def hookBranch (r : HookRequest) : Option String :=
  match r.refField with
  | none => none
  | some ref => some (refBranch ref)

/-- The processing an unauthenticated event request receives once the
verification step is behind it: extract the branch from the payload and
run the accepting tail. -/
def hookAfterVerify (c : HookCourse) (r : HookRequest) : HookResult :=
  hookAccept c r (hookBranch r)

/-- The view `hook(request, key)` (lines 233-298). -/
def hook (hmac : String → String → String) (c : HookCourse) (r : HookRequest) :
    HookResult :=
  if r.isPost = false then
    { response := .methodNotAllowed, updateCreated := false, enqueued := none }
  else if r.authenticated then
    if r.hasWriteAccess = false then
      { response := .forbidden "No access to course", updateCreated := false,
        enqueued := none }
    else hookAccept c r none
  else if r.gitlabEvent then
    match c.webhook_secret with
    | none => hookAfterVerify c r
    | some secret =>
      match try_verify_gitlab r secret with
      | some err =>
        { response := .forbidden err, updateCreated := false, enqueued := none }
      | none => hookAfterVerify c r
  else if r.githubEvent then
    match c.webhook_secret with
    | none => hookAfterVerify c r
    | some secret =>
      match try_verify_github hmac r secret with
      | some err =>
        { response := .forbidden err, updateCreated := false, enqueued := none }
      | none => hookAfterVerify c r
  else
    { response := .badRequest "Unknown git service", updateCreated := false,
      enqueued := none }

/-! ## Concrete instances used by witnesses and counterexamples -/

def wCourse : CourseRec :=
  { git_origin := "https://example.org/course.git", email_on_error := true,
    update_automatically := true, skip_build_failsafes := false, remote_id := some 1 }

def wOpts : BuildOptions :=
  { skip_git := false, skip_build := false, skip_notify := false, rebuild_all := false }

def wEnv : RunEnv :=
  { gitOutcome := .returned true none, localSourceConfigured := false,
    copyRaises := false, buildOutcome := .ok true, selfContained := (true, none),
    configOutcome := .ok, storeOutcome := .ok true, frontendConfigured := true,
    cleanOutcome := .ok true }

/-- STORE and PUBLISH both present with matching version ids. -/
def wPubMatch : PubState :=
  { storeExists := true, storeVersion := some "v1", prodExists := true,
    prodVersion := some "v1", storeConfig := some "cfg", prodConfig := some "cfg",
    graderErrors := [] }

/-- A freshly stored course that has never been published. -/
def wPubFresh : PubState :=
  { storeExists := true, storeVersion := some "v1", prodExists := false,
    prodVersion := none, storeConfig := some "cfg", prodConfig := none,
    graderErrors := [] }

/-- A stored course whose STORE config fails to load, with an older
published version. -/
def wPubBroken : PubState :=
  { storeExists := true, storeVersion := some "v1", prodExists := true,
    prodVersion := some "v0", storeConfig := none, prodConfig := some "cfg",
    graderErrors := [] }

/-- Eleven updates: the single pending one is older than ten
non-pending ones, so the pruning step deletes it. -/
def cexDb : List Update :=
  ⟨0, 0, .pending⟩ ::
    (List.range 10).map (fun i => { uid := i + 1, requestTime := i + 1, status := .success })

/-- Three pending updates with distinct request times. -/
def wDb : List Update :=
  [⟨0, 5, .pending⟩, ⟨1, 7, .pending⟩, ⟨2, 6, .pending⟩]

/-- An unauthenticated GitLab push request for branch `main`. -/
def wHookReq : HookRequest :=
  { isPost := true, authenticated := false, hasWriteAccess := false,
    gitlabEvent := true, githubEvent := false, gitlabToken := none,
    githubSignature := none, body := "payload",
    refField := some (some "refs/heads/main"), reqParams := [], hasReferer := false }

def wHookCourse : HookCourse :=
  { webhook_secret := none, git_branch := "main" }

/-- Two clean files (the second a relative symlink, which is allowed). -/
def wCleanFiles : List FileEntry :=
  [⟨"a.txt", true, false, false⟩, ⟨"b.txt", true, true, false⟩]

/-- A file that resolves outside the course directory. -/
def wBadFile : FileEntry := ⟨"c.txt", false, true, true⟩

/-! ## Claim theorems -/

/-- C2: counterexample.  With a configured global default command
(`"make"`), no override image, no override command and no manifest, the
resolved command is unset - it is not the global default command, so
the build is not invoked with the default command as the claim states. -/
theorem claim_C2_counterexample :
    resolveImageCommand ⟨"img", "make"⟩ none none none = ("img", none) ∧
    (resolveImageCommand ⟨"img", "make"⟩ none none none).2 ≠ some "make" :=
  ⟨rfl, by decide⟩

/-- C2 (amended): if no override image is supplied and the course has no
manifest file, the build is invoked with the globally configured default
image, and the command is the override command when one was supplied and
otherwise left unset - the globally configured default command is not
applied. -/
theorem claim_C2 (tok : String → List String) (s : BuildSettings)
    (command : Option String) (h : pyStrip s.default_image ≠ "") :
    resolveImageCommand s none command none = (s.default_image, command) ∧
    buildInvocation tok s none command none =
      .invoke (pyStrip s.default_image) (command.map tok) := by
  refine ⟨rfl, ?_⟩
  simp only [buildInvocation, resolveImageCommand]
  simp [h]

theorem claim_C2_witness :
    pyStrip "img" ≠ "" ∧
    (resolveImageCommand ⟨"img", "make"⟩ none none none = ("img", none) ∧
      buildInvocation (fun c => [c]) ⟨"img", "make"⟩ none none none =
        .invoke (pyStrip "img") none) :=
  ⟨by decide, claim_C2 (fun c => [c]) ⟨"img", "make"⟩ none (by decide)⟩

/-- C3: if no override command is supplied and the manifest specifies a
build image but no build command, the resolved command is unset - the
executor is invoked with no command even when a global default command
is configured. -/
theorem claim_C3 (tok : String → List String) (s : BuildSettings)
    (img : String) (h : pyStrip img ≠ "") :
    resolveImageCommand s none none (some ⟨some img, none⟩) = (img, none) ∧
    buildInvocation tok s none none (some ⟨some img, none⟩) =
      .invoke (pyStrip img) none := by
  refine ⟨rfl, ?_⟩
  simp only [buildInvocation, resolveImageCommand, Option.getD]
  simp [h]

theorem claim_C3_witness :
    pyStrip "foo" ≠ "" ∧
    (resolveImageCommand ⟨"img", "make"⟩ none none (some ⟨some "foo", none⟩) =
        ("foo", none) ∧
      buildInvocation (fun c => [c]) ⟨"img", "make"⟩ none none
          (some ⟨some "foo", none⟩) = .invoke (pyStrip "foo") none) :=
  ⟨by decide, claim_C3 (fun c => [c]) ⟨"img", "make"⟩ "foo" (by decide)⟩

/-- C8: whenever the changed-file set is unknown (the git phase produced
no changed-file list) or a full rebuild was requested, the build stage
is invoked with the single-element wildcard list `["*"]`, never with an
empty list. -/
theorem claim_C8 (c : CourseRec) (o : BuildOptions) (env : RunEnv)
    (arg : List String) (h1 : (runBody c o env).2 = some arg)
    (h2 : o.rebuild_all = true ∨ gitPhase c o env = .ok none) :
    arg = ["*"] ∧ arg ≠ [] := by
  have hbp : ∀ ch, (buildPhase o env ch).1 =
      if o.skip_build then none
      else some (effectiveChangedFiles o.rebuild_all ch) := by
    intro ch
    unfold buildPhase
    split <;> rfl
  have hsnd : (runBody c o env).2 =
      match gitPhase c o env with
      | .error _ => none
      | .ok changed => (buildPhase o env changed).1 := by
    unfold runBody
    rcases hg : gitPhase c o env with r | changed
    · rfl
    · rcases hb : buildPhase o env changed with ⟨a, out⟩
      rcases out with r | u
      · simp [hb]
      · cases u; simp [hb]
  have harg : arg = ["*"] := by
    rw [h1] at hsnd
    rcases hg : gitPhase c o env with r | changed
    · rw [hg] at hsnd; simp at hsnd
    · rw [hg] at hsnd; dsimp only at hsnd
      rw [hbp changed] at hsnd
      have hchanged : o.rebuild_all = true ∨ changed = none := by
        rcases h2 with h2 | h2
        · exact Or.inl h2
        · rw [hg] at h2
          simp only [Except.ok.injEq] at h2
          exact Or.inr h2
      have heff : effectiveChangedFiles o.rebuild_all changed = ["*"] := by
        rcases hchanged with h | h
        · simp [effectiveChangedFiles, h]
        · subst h
          simp only [effectiveChangedFiles]
          split <;> rfl
      by_cases hsb : o.skip_build
      · simp [hsb] at hsnd
      · simp [hsb, heff] at hsnd
        exact hsnd
  exact ⟨harg, by rw [harg]; simp⟩

theorem claim_C8_witness :
    ((runBody wCourse wOpts wEnv).2 = some ["*"] ∧
      (wOpts.rebuild_all = true ∨ gitPhase wCourse wOpts wEnv = .ok none)) ∧
    ((["*"] : List String) = ["*"] ∧ (["*"] : List String) ≠ []) :=
  ⟨⟨rfl, Or.inr rfl⟩, claim_C8 wCourse wOpts wEnv ["*"] rfl (Or.inr rfl)⟩

/-- C9: on every exit path of the orchestrator - success, stage failure
(early return) and unhandled exception, all covered by quantifying over
the stage outcomes - the terminal handling runs: the final status is
`SUCCESS` or forced to `FAILED`, the failure email is sent exactly when
the run failed and the course has `email_on_error`, and the final log
and completion timestamp are persisted in all cases. -/
theorem claim_C9 (c : CourseRec) (o : BuildOptions) (env : RunEnv) :
    ((buildCourseRun c o env).status = .success ∨
      (buildCourseRun c o env).status = .failed) ∧
    ((buildCourseRun c o env).failureEmailSent = true ↔
      ((buildCourseRun c o env).status = .failed ∧ c.email_on_error = true)) ∧
    (buildCourseRun c o env).logPersisted = true ∧
    (buildCourseRun c o env).timePersisted = true := by
  rcases hrb : runBody c o env with ⟨body, a⟩
  unfold buildCourseRun
  rw [hrb]
  cases body <;> simp

/-- The fallback tail never performs the promotion renames. -/
theorem publishFallback_promoted (s : PubState) (errs : List String) :
    (publishFallback s errs).promoted = false := by
  by_cases hpe : s.prodExists = true
  · rcases hpc : s.prodConfig with _ | pc <;> simp [publishFallback, hpe, hpc]
  · by_cases herr : errs = [] <;> simp [publishFallback, hpe, herr]

/-- The fallback tail leaves the filesystem state untouched. -/
theorem publishFallback_state (s : PubState) (errs : List String) :
    (publishFallback s errs).state = s := by
  by_cases hpe : s.prodExists = true
  · rcases hpc : s.prodConfig with _ | pc <;> simp [publishFallback, hpe, hpc]
  · by_cases herr : errs = [] <;> simp [publishFallback, hpe, herr]

/-- Errors accumulated before the fallback tail stay recorded in its
returned or raised error information. -/
theorem publishFallback_mem (s : PubState) (errs : List String) (e : String)
    (he : e ∈ errs) : e ∈ recordedErrors (publishFallback s errs) := by
  by_cases hpe : s.prodExists = true
  · rcases hpc : s.prodConfig with _ | pc <;>
      simp [publishFallback, recordedErrors, hpe, hpc, he]
  · have herr : ¬errs = [] := by
      intro h; rw [h] at he; exact absurd he (List.not_mem_nil e)
    simp [publishFallback, recordedErrors, hpe, herr, he]

/-- The fallback tail raises exactly when the PUBLISH config cannot be
obtained. -/
theorem publishFallback_raises (s : PubState) (errs : List String) :
    publishRaises (publishFallback s errs) = true ↔
      ¬(s.prodExists = true ∧ s.prodConfig ≠ none) := by
  by_cases hpe : s.prodExists = true
  · rcases hpc : s.prodConfig with _ | pc <;>
      simp [publishFallback, publishRaises, hpe, hpc]
  · by_cases herr : errs = [] <;>
      simp [publishFallback, publishRaises, hpe, herr]

/-- The fallback tail on a loadable PUBLISH config returns the
accumulated errors followed by the grader collaborator's errors. -/
theorem publishFallback_ok (s : PubState) (errs : List String) (c : String)
    (hpe : s.prodExists = true) (hpc : s.prodConfig = some c) :
    publishFallback s errs =
      { state := s, outcome := .ok (errs ++ s.graderErrors), promoted := false,
        config := some c } := by
  simp [publishFallback, hpe, hpc]

/-- When STORE exists, the version ids differ and the STORE config
loads, `publish` promotes: PUBLISH receives STORE's artifacts. -/
theorem publishRun_promote (s : PubState) (c : String)
    (hc : s.storeExists = true ∧ versionsDiffer s) (hsc : s.storeConfig = some c) :
    publishRun s =
      { state := promotedState s c,
        outcome := .ok s.graderErrors, promoted := true, config := some c } := by
  unfold publishRun promotedState
  rw [if_pos hc, hsc]

/-- When the promotion is not attempted or the STORE config fails to
load, `publish` reduces to the fallback tail. -/
theorem publishRun_fallback (s : PubState) :
    (¬(s.storeExists = true ∧ versionsDiffer s) →
      publishRun s = publishFallback s []) ∧
    (s.storeExists = true ∧ versionsDiffer s → s.storeConfig = none →
      publishRun s = publishFallback s [storeLoadErrorMsg]) := by
  constructor
  · intro hc
    unfold publishRun
    rw [if_neg hc]
  · intro hc hsc
    unfold publishRun
    rw [if_pos hc, hsc]

/-- C4: the STORE artifacts are promoted onto the PUBLISH paths only
when the version-id files differ or one of them is missing (and the
STORE config loads); when both version-id files exist with equal
contents nothing is renamed and the state is untouched; and after a
promoting publish, a second publish with no intervening store performs
no promotion, changes nothing, and returns without raising and without
errors of its own. -/
theorem claim_C4 (s : PubState) :
    ((publishRun s).promoted = true →
      s.storeExists = true ∧ versionsDiffer s ∧ s.storeConfig ≠ none) ∧
    (∀ v, s.prodVersion = some v → s.storeVersion = some v →
      (publishRun s).promoted = false ∧ (publishRun s).state = s) ∧
    ((publishRun s).promoted = true → ∀ v, s.storeVersion = some v →
      s.graderErrors = [] →
      (publishRun (publishRun s).state).promoted = false ∧
      (publishRun (publishRun s).state).outcome = .ok [] ∧
      (publishRun (publishRun s).state).state = (publishRun s).state) := by
  have hpromote : (publishRun s).promoted = true →
      (s.storeExists = true ∧ versionsDiffer s) ∧ ∃ c, s.storeConfig = some c := by
    intro hp
    by_cases hc : s.storeExists = true ∧ versionsDiffer s
    · rcases hsc : s.storeConfig with _ | c
      · rw [(publishRun_fallback s).2 hc hsc, publishFallback_promoted] at hp
        exact absurd hp (by simp)
      · exact ⟨hc, c, rfl⟩
    · rw [(publishRun_fallback s).1 hc, publishFallback_promoted] at hp
      exact absurd hp (by simp)
  refine ⟨?_, ?_, ?_⟩
  · intro hp
    rcases hpromote hp with ⟨hc, c, hsc⟩
    exact ⟨hc.1, hc.2, by simp [hsc]⟩
  · intro v hpv hsv
    have hnd : ¬(s.storeExists = true ∧ versionsDiffer s) := by
      rintro ⟨-, hd | hd | hd⟩ <;> simp_all [versionsDiffer]
    rw [(publishRun_fallback s).1 hnd]
    exact ⟨publishFallback_promoted s [], publishFallback_state s []⟩
  · intro hp v hsv hge
    rcases hpromote hp with ⟨hc, c, hsc⟩
    rw [publishRun_promote s c hc hsc]
    dsimp only
    have hnd : ¬((promotedState s c).storeExists = true ∧
        versionsDiffer (promotedState s c)) := by
      rintro ⟨-, hd | hd | hd⟩ <;> simp_all [versionsDiffer, promotedState]
    rw [(publishRun_fallback _).1 hnd, publishFallback_ok _ [] c rfl rfl]
    simp [promotedState, hge]

theorem claim_C4_witness :
    (wPubMatch.prodVersion = some "v1" ∧ wPubMatch.storeVersion = some "v1" ∧
      ((publishRun wPubMatch).promoted = false ∧
        (publishRun wPubMatch).state = wPubMatch)) ∧
    ((publishRun wPubFresh).promoted = true ∧ wPubFresh.storeVersion = some "v1" ∧
      wPubFresh.graderErrors = [] ∧
      ((publishRun (publishRun wPubFresh).state).promoted = false ∧
        (publishRun (publishRun wPubFresh).state).outcome = .ok [] ∧
        (publishRun (publishRun wPubFresh).state).state =
          (publishRun wPubFresh).state)) :=
  ⟨⟨rfl, rfl, (claim_C4 wPubMatch).2.1 "v1" rfl rfl⟩,
    ⟨rfl, rfl, rfl, (claim_C4 wPubFresh).2.2 rfl "v1" rfl rfl⟩⟩

/-- C5: when loading the STORE configuration fails (`ConfigError`), no
rename is performed and the PUBLISH files are left unchanged - the
whole publish state is untouched - and, whenever the promotion was
attempted at all, the load error is recorded in the returned or raised
error information. -/
theorem claim_C5 (s : PubState) (h : s.storeConfig = none) :
    (publishRun s).promoted = false ∧
    (publishRun s).state = s ∧
    (s.storeExists = true → versionsDiffer s →
      storeLoadErrorMsg ∈ recordedErrors (publishRun s)) := by
  by_cases hc : s.storeExists = true ∧ versionsDiffer s
  · rw [(publishRun_fallback s).2 hc h]
    exact ⟨publishFallback_promoted s _, publishFallback_state s _,
      fun _ _ => publishFallback_mem s _ _ (by simp)⟩
  · rw [(publishRun_fallback s).1 hc]
    exact ⟨publishFallback_promoted s _, publishFallback_state s _,
      fun h1 h2 => absurd ⟨h1, h2⟩ hc⟩

theorem claim_C5_witness :
    wPubBroken.storeConfig = none ∧
    ((publishRun wPubBroken).promoted = false ∧
      (publishRun wPubBroken).state = wPubBroken ∧
      (wPubBroken.storeExists = true → versionsDiffer wPubBroken →
        storeLoadErrorMsg ∈ recordedErrors (publishRun wPubBroken))) :=
  ⟨rfl, claim_C5 wPubBroken rfl⟩

/-- C6: `publish` raises an exception exactly when no configuration was
loaded from either source: neither the STORE configuration (which is
only consulted when STORE exists and the version ids differ or are
missing) nor the PUBLISH configuration (only available when PUBLISH
exists and loads) was obtained.  In every other case the run returns
the accumulated error list. -/
theorem claim_C6 (s : PubState) :
    publishRaises (publishRun s) = true ↔
      ¬(s.storeExists = true ∧ versionsDiffer s ∧ s.storeConfig ≠ none) ∧
      ¬(s.prodExists = true ∧ s.prodConfig ≠ none) := by
  by_cases hc : s.storeExists = true ∧ versionsDiffer s
  · rcases hsc : s.storeConfig with _ | c
    · rw [(publishRun_fallback s).2 hc hsc, publishFallback_raises]
      simp [hsc]
    · rw [publishRun_promote s c hc hsc]
      simp [publishRaises, hc, hsc]
  · rw [(publishRun_fallback s).1 hc, publishFallback_raises]
    tauto


/-- The check passes exactly when every file of the walk is clean. -/
theorem is_self_contained_true_iff (files : List FileEntry) :
    is_self_contained files = (true, none) ↔ ∀ f ∈ files, fileOk f := by
  induction files with
  | nil => simp [is_self_contained]
  | cons f fs ih =>
    unfold is_self_contained
    by_cases h1 : f.resolvedInside = false
    · rw [if_pos h1]
      constructor
      · intro h
        exact absurd h (by simp)
      · intro hall
        have hf := hall f (List.mem_cons_self f fs)
        unfold fileOk at hf
        rw [h1] at hf
        exact absurd hf.1 (by simp)
    · rw [if_neg h1]
      have hri : f.resolvedInside = true := by
        revert h1
        cases f.resolvedInside <;> simp
      by_cases h2 : f.isLink = true ∧ f.targetAbs = true
      · rw [if_pos h2]
        constructor
        · intro h
          exact absurd h (by simp)
        · intro hall
          have hf := hall f (List.mem_cons_self f fs)
          exact ((hf.2 h2).elim)
      · rw [if_neg h2, ih]
        constructor
        · intro hall g hg
          rcases List.mem_cons.mp hg with rfl | hg
          · exact ⟨hri, h2⟩
          · exact hall g hg
        · intro hall g hg
          exact hall g (List.mem_cons_of_mem f hg)

/-- The first violating file of the walk determines the result. -/
theorem is_self_contained_violation (pre : List FileEntry) (f : FileEntry)
    (post : List FileEntry) (hpre : ∀ g ∈ pre, fileOk g) (hf : ¬fileOk f) :
    is_self_contained (pre ++ f :: post) = (false, some (violationReason f)) := by
  induction pre with
  | nil =>
    rw [List.nil_append]
    unfold is_self_contained violationReason
    by_cases h1 : f.resolvedInside = false
    · rw [if_pos h1, if_pos h1]
    · have hri : f.resolvedInside = true := by
        revert h1
        cases f.resolvedInside <;> simp
      have h2 : f.isLink = true ∧ f.targetAbs = true := by
        by_contra h2
        exact hf ⟨hri, h2⟩
      rw [if_neg h1, if_pos h2, if_neg h1]
  | cons g gs ih =>
    have hg := hpre g (List.mem_cons_self g gs)
    have hg1 : ¬(g.resolvedInside = false) := by simp [hg.1]
    rw [List.cons_append]
    unfold is_self_contained
    rw [if_neg hg1, if_neg hg.2]
    exact ih (fun x hx => hpre x (List.mem_cons_of_mem g hx))

/-- C7: `is_self_contained` returns `(True, None)` exactly when no file
of the walk resolves outside the directory or is an absolute symlink
(so every file is examined), and it returns `(False, reason)` for the
first file encountered in walk order that violates either condition,
with the reason naming that file. -/
theorem claim_C7 (files : List FileEntry) :
    ((∀ f ∈ files, fileOk f) → is_self_contained files = (true, none)) ∧
    (is_self_contained files = (true, none) → ∀ f ∈ files, fileOk f) ∧
    (∀ pre f post, files = pre ++ f :: post → (∀ g ∈ pre, fileOk g) →
      ¬fileOk f →
      is_self_contained files = (false, some (violationReason f))) :=
  ⟨fun h => (is_self_contained_true_iff files).mpr h,
    fun h => (is_self_contained_true_iff files).mp h,
    fun pre f post heq hpre hf =>
      heq ▸ is_self_contained_violation pre f post hpre hf⟩

theorem claim_C7_witness :
    ((∀ f ∈ wCleanFiles, fileOk f) ∧
      is_self_contained wCleanFiles = (true, none)) ∧
    ((wCleanFiles ++ [wBadFile] = wCleanFiles ++ wBadFile :: []) ∧
      (∀ g ∈ wCleanFiles, fileOk g) ∧ ¬fileOk wBadFile ∧
      is_self_contained (wCleanFiles ++ [wBadFile]) =
        (false, some (violationReason wBadFile))) :=
  ⟨⟨by decide, (claim_C7 wCleanFiles).1 (by decide)⟩,
    ⟨rfl, by decide, by decide,
      (claim_C7 (wCleanFiles ++ [wBadFile])).2.2 wCleanFiles wBadFile [] rfl
        (by decide) (by decide)⟩⟩

/-- C10: for an unauthenticated webhook POST carrying a GitLab or
GitHub event header, when the course's `webhook_secret` is `None` no
signature or secret verification happens at all: the request is
processed (branch check, update creation, job enqueue) identically for
arbitrary token/signature headers, and identically to a request whose
verification would have succeeded against a configured secret. -/
theorem claim_C10 (hmac : String → String → String) (c : HookCourse)
    (r : HookRequest) (t sig : Option String) (sec : String)
    (h1 : r.isPost = true) (h2 : r.authenticated = false)
    (h3 : r.gitlabEvent = true ∨ r.githubEvent = true)
    (h4 : c.webhook_secret = none) :
    hook hmac c r = hookAfterVerify c r ∧
    hook hmac c { r with gitlabToken := t, githubSignature := sig } =
      hookAfterVerify c r ∧
    hook hmac { c with webhook_secret := some sec }
        { r with gitlabToken := some sec,
                 githubSignature := some ("sha256=" ++ hmac sec r.body) } =
      hookAfterVerify c r := by
  cases hgl : r.gitlabEvent with
  | true =>
    refine ⟨?_, ?_, ?_⟩ <;>
      simp [hook, hookAfterVerify, hookBranch, hookAccept, h1, h2, h4, hgl,
        try_verify_gitlab, compareDigest]
  | false =>
    have hgh : r.githubEvent = true := by
      rcases h3 with h | h
      · rw [hgl] at h
        cases h
      · exact h
    refine ⟨?_, ?_, ?_⟩ <;>
      simp [hook, hookAfterVerify, hookBranch, hookAccept, h1, h2, h4, hgl, hgh,
        try_verify_github, verify_hmac, compareDigest]

theorem claim_C10_witness :
    (wHookReq.isPost = true ∧ wHookReq.authenticated = false ∧
      (wHookReq.gitlabEvent = true ∨ wHookReq.githubEvent = true) ∧
      wHookCourse.webhook_secret = none) ∧
    (hook (fun _ _ => "h") wHookCourse wHookReq =
        hookAfterVerify wHookCourse wHookReq ∧
      hook (fun _ _ => "h") wHookCourse
          { wHookReq with gitlabToken := some "x", githubSignature := some "y" } =
        hookAfterVerify wHookCourse wHookReq ∧
      hook (fun _ _ => "h") { wHookCourse with webhook_secret := some "s" }
          { wHookReq with gitlabToken := some "s",
                          githubSignature :=
                            some ("sha256=" ++ (fun _ _ => "h") "s" wHookReq.body) } =
        hookAfterVerify wHookCourse wHookReq) :=
  ⟨⟨rfl, rfl, Or.inl rfl, rfl⟩,
    claim_C10 (fun _ _ => "h") wHookCourse wHookReq (some "x") (some "y") "s"
      rfl rfl (Or.inl rfl) rfl⟩


/-- Membership in an ascending insertion. -/
theorem mem_insertAsc (u v : Update) (l : List Update) :
    v ∈ insertAsc u l ↔ v = u ∨ v ∈ l := by
  induction l with
  | nil => simp [insertAsc]
  | cons w ws ih =>
    unfold insertAsc
    split
    · rw [List.mem_cons, ih, List.mem_cons]
      tauto
    · simp [List.mem_cons]

/-- Sorting ascending preserves membership. -/
theorem mem_sortAsc (v : Update) (l : List Update) :
    v ∈ sortAsc l ↔ v ∈ l := by
  induction l with
  | nil => simp [sortAsc]
  | cons u us ih =>
    unfold sortAsc
    rw [mem_insertAsc, ih, List.mem_cons]

/-- Ascending insertion preserves sortedness. -/
theorem pairwise_insertAsc (u : Update) (l : List Update)
    (h : List.Pairwise leT l) : List.Pairwise leT (insertAsc u l) := by
  induction l with
  | nil => simp [insertAsc]
  | cons w ws ih =>
    rcases List.pairwise_cons.mp h with ⟨hall, hws⟩
    unfold insertAsc
    split
    · rename_i hw
      refine List.pairwise_cons.mpr ⟨?_, ih hws⟩
      intro x hx
      rcases (mem_insertAsc u x ws).mp hx with rfl | hx
      · exact hw
      · exact hall x hx
    · rename_i hw
      have hu : u.requestTime ≤ w.requestTime := Nat.le_of_not_le hw
      refine List.pairwise_cons.mpr ⟨?_, h⟩
      intro x hx
      rcases List.mem_cons.mp hx with rfl | hx
      · exact hu
      · exact Nat.le_trans hu (hall x hx)

/-- The result of the ascending sort is sorted. -/
theorem pairwise_sortAsc (l : List Update) : List.Pairwise leT (sortAsc l) := by
  induction l with
  | nil => simp [sortAsc]
  | cons u us ih => exact pairwise_insertAsc u _ ih

/-- In a list sorted by ascending request time, the last element has
the maximal request time. -/
theorem pairwise_le_getLast : ∀ {l : List Update}, List.Pairwise leT l →
    ∀ (hne : l ≠ []) (v : Update), v ∈ l → leT v (l.getLast hne)
  | [], _, hne, _, _ => absurd rfl hne
  | [x], _, _, v, hv => by
    have hvx : v = x := by simpa using hv
    subst hvx
    exact Nat.le_refl _
  | x :: y :: xs, h, _, v, hv => by
    rw [List.getLast_cons_cons]
    rcases List.mem_cons.mp hv with rfl | hv2
    · exact (List.pairwise_cons.mp h).1 _
        (List.getLast_mem (List.cons_ne_nil y xs))
    · exact pairwise_le_getLast (List.pairwise_cons.mp h).2
        (List.cons_ne_nil y xs) v hv2

/-- C1 (amended): among the updates surviving the prune to the 10 most
recent, if at least one is pending, the invocation runs exactly one
update - the surviving pending update with the latest request time -
and marks every other surviving pending update `SKIPPED`; pending
updates deleted by the prune neither run nor get marked. -/
theorem claim_C1 (db : List Update)
    (hne : pendingAsc (pruneUpdates db) ≠ []) :
    ∃ u, (sequenceUpdates db).2 = some u ∧ u ∈ pruneUpdates db ∧
      u.status = .pending ∧
      (∀ v ∈ pruneUpdates db, v.status = .pending →
        v.requestTime ≤ u.requestTime) ∧
      { u with status := UpdateStatus.running } ∈ (sequenceUpdates db).1 ∧
      (∀ v ∈ pruneUpdates db, v.status = .pending → v.uid ≠ u.uid →
        { v with status := UpdateStatus.skipped } ∈ (sequenceUpdates db).1) := by
  have hgl : (pendingAsc (pruneUpdates db)).getLast? =
      some ((pendingAsc (pruneUpdates db)).getLast hne) :=
    List.getLast?_eq_getLast_of_ne_nil hne
  have hsorted : List.Pairwise leT (pendingAsc (pruneUpdates db)) := by
    unfold pendingAsc
    exact pairwise_sortAsc _
  have humem : (pendingAsc (pruneUpdates db)).getLast hne ∈
      pendingAsc (pruneUpdates db) := List.getLast_mem hne
  have humem2 : (pendingAsc (pruneUpdates db)).getLast hne ∈
        pruneUpdates db ∧
      ((pendingAsc (pruneUpdates db)).getLast hne).status = .pending := by
    unfold pendingAsc at humem
    rw [mem_sortAsc] at humem
    rcases List.mem_filter.mp humem with ⟨h1, h2⟩
    exact ⟨h1, of_decide_eq_true h2⟩
  have hpair : sequenceUpdates db =
      ((pruneUpdates db).map (fun v =>
        if v.status = .pending ∧
            v.uid ≠ ((pendingAsc (pruneUpdates db)).getLast hne).uid then
          { v with status := .skipped }
        else if v.uid = ((pendingAsc (pruneUpdates db)).getLast hne).uid then
          { v with status := .running }
        else v),
        some ((pendingAsc (pruneUpdates db)).getLast hne)) := by
    unfold sequenceUpdates
    rw [hgl]
  refine ⟨(pendingAsc (pruneUpdates db)).getLast hne, ?_, humem2.1, humem2.2,
    ?_, ?_, ?_⟩
  · rw [hpair]
  · intro v hv hvp
    have hvmem : v ∈ pendingAsc (pruneUpdates db) := by
      unfold pendingAsc
      rw [mem_sortAsc]
      exact List.mem_filter.mpr ⟨hv, decide_eq_true hvp⟩
    exact pairwise_le_getLast hsorted hne v hvmem
  · rw [hpair]
    refine List.mem_map.mpr ⟨(pendingAsc (pruneUpdates db)).getLast hne,
      humem2.1, ?_⟩
    simp
  · intro v hv hvp hvu
    rw [hpair]
    exact List.mem_map.mpr ⟨v, hv, by simp [hvp, hvu]⟩

/-- C1: counterexample to the claim as stated.  A course with one
pending update and ten more recent non-pending updates has N = 1
pending updates, yet the invocation runs none of them (the pending
update is deleted by the pruning step) and marks none `SKIPPED`. -/
theorem claim_C1_counterexample :
    (cexDb.filter (fun u => u.status = .pending)).length = 1 ∧
    (sequenceUpdates cexDb).2 = none ∧
    ∀ w ∈ (sequenceUpdates cexDb).1, w.status ≠ .skipped := by decide

theorem claim_C1_witness :
    pendingAsc (pruneUpdates wDb) ≠ [] ∧
    (∃ u, (sequenceUpdates wDb).2 = some u ∧ u ∈ pruneUpdates wDb ∧
      u.status = .pending ∧
      (∀ v ∈ pruneUpdates wDb, v.status = .pending →
        v.requestTime ≤ u.requestTime) ∧
      { u with status := UpdateStatus.running } ∈ (sequenceUpdates wDb).1 ∧
      (∀ v ∈ pruneUpdates wDb, v.status = .pending → v.uid ≠ u.uid →
        { v with status := UpdateStatus.skipped } ∈ (sequenceUpdates wDb).1)) :=
  ⟨by decide, claim_C1 wDb (by decide)⟩

end GitManager
